import Mathlib

/-!
Verification of the Finance-Robot transaction engine (Express server,
`src/unnamed/part_001`): the categorization heuristic, amount
normalization, the CSV import row loop, the manual entry endpoint and
the three aggregation loops, shallowly embedded and checked against the
design document.

Number model: a JavaScript number is embedded as `Option ℚ`: `some q`
is a finite value (exact rational arithmetic stands in for the finite
doubles the program manipulates; IEEE rounding is outside the model),
`none` is `NaN`, which `Number(...)` yields on unparsable input and
which every arithmetic operation propagates.  `NaN` compares false and
is falsy, exactly as in JavaScript.
-/

/-- A JavaScript number: `some q` a finite value, `none` is `NaN`. -/
abbrev JsNum := Option ℚ

/-- JavaScript addition: `NaN` absorbs. -/
def jAdd : JsNum → JsNum → JsNum
  | some a, some b => some (a + b)
  | _, _ => none

/-- JavaScript unary minus: `-NaN = NaN`. -/
def jNeg : JsNum → JsNum
  | some a => some (-a)
  | none => none

/-- `Math.abs`: `Math.abs(NaN) = NaN`. -/
def jAbs : JsNum → JsNum
  | some a => some (if a < 0 then -a else a)
  | none => none

/-- JavaScript subtraction. -/
def jSub (a b : JsNum) : JsNum := jAdd a (jNeg b)

/-- The comparison `a > 0`; any comparison with `NaN` is false. -/
def jPos : JsNum → Bool
  | some a => decide (0 < a)
  | none => false

/-- JavaScript division; in this development it is only applied under the
guard `income > 0`, so the divisor is finite and nonzero. -/
def jDiv : JsNum → JsNum → JsNum
  | some a, some b => some (a / b)
  | _, _ => none

/-- Sum of a list of JavaScript numbers (one `NaN` poisons the sum). -/
def jSum : List JsNum → JsNum
  | [] => some 0
  | x :: l => jAdd x (jSum l)

/-!  String helpers.  The program's strings are embedded through their
character lists; `trimL` models `String.prototype.trim` (ASCII
whitespace, the only whitespace the program meets). -/

/-- Drop leading and trailing whitespace, as `String.prototype.trim`. -/
def trimL (l : List Char) : List Char :=
  ((l.dropWhile Char.isWhitespace).reverse.dropWhile Char.isWhitespace).reverse

/-- `trim()` on a string. -/
def trimStr (s : String) : String := ⟨trimL s.data⟩

/-- `toLowerCase()` (ASCII; the program's keywords are ASCII). -/
def lowerStr (s : String) : String := ⟨s.data.map Char.toLower⟩

/-- `slice(0, 10)` on a string. -/
def slice10 (s : String) : String := ⟨s.data.take 10⟩

/-- The first list is a leading segment of the second. -/
def pfxL : List Char → List Char → Bool
  | [], _ => true
  | _ :: _, [] => false
  | a :: as, b :: bs => a == b && pfxL as bs

/-- The first list occurs contiguously inside the second. -/
def subAt : List Char → List Char → Bool
  | needle, [] => pfxL needle []
  | needle, h :: t => pfxL needle (h :: t) || subAt needle t

/-- JavaScript `hay.includes(needle)`. -/
def incl (hay needle : String) : Bool := subAt needle.data hay.data

/-- The categorization heuristic, transcribed from `categorize`
(src/unnamed/part_001 lines 28-50). -/
def categorize (name : String) (amount : JsNum) : String :=
  if trimStr name = "" then "Uncategorized"
  else
    let n := lowerStr name
    if jPos amount then "Income"
    else if incl n "rent" then "Housing"
    else if incl n "grocery" || incl n "supermarket" || incl n "trader" || incl n "whole foods" then "Groceries"
    else if incl n "gas" || incl n "shell" || incl n "exxon" || incl n "bp" then "Gas"
    else if incl n "uber" || incl n "lyft" || incl n "taxi" then "Transport"
    else if incl n "netflix" || incl n "spotify" || incl n "hulu" || incl n "disney" then "Subscriptions"
    else if incl n "electric" || incl n "utility" || incl n "water" || incl n "coned" || incl n "pseg" then "Utilities"
    else if incl n "internet" || incl n "verizon" || incl n "optimum" || incl n "comcast" then "Internet"
    else if incl n "coffee" || incl n "starbucks" || incl n "dunkin" then "Coffee"
    else if incl n "chipotle" || incl n "mcdonald" || incl n "restaurant" || incl n "pizza" then "Dining"
    else "Uncategorized"

example : categorize "Whole Foods Market" (some (-5)) = "Groceries" := by decide
example : categorize "anything" (some 3) = "Income" := by decide
example : categorize "   " (some (-5)) = "Uncategorized" := by decide
example : categorize "Starbucks #12" (some (-4)) = "Coffee" := by decide

/-!  Amount parsing.  `jsNumL` models the `Number(...)` string-to-number
conversion on the decimal literals the program's inputs use: surrounding
whitespace is ignored, the empty string is `0`, an optional sign precedes
digits with an optional fractional part, and anything else is `NaN`.
(The exponent, hexadecimal and `Infinity` forms of `Number` are outside
the model.) -/

/-- Numeric value of a digit string. -/
def natOfDigits (l : List Char) : ℕ :=
  l.foldl (fun n c => 10 * n + (c.toNat - 48)) 0

/-- The rational written with numerator `n` and `k` digits after the
decimal point. -/
def mkDecimal (n k : ℕ) : ℚ := (n : ℚ) / 10 ^ k

/-- Unsigned decimal literal: digits with an optional fractional part;
`"5."` and `".5"` are accepted, a bare `"."` or junk is `NaN`. -/
def parseDec (l : List Char) : JsNum :=
  let ds := l.takeWhile Char.isDigit
  match l.dropWhile Char.isDigit with
  | [] => if ds.isEmpty then none else some (natOfDigits ds)
  | '.' :: frac =>
      if frac.all Char.isDigit && !(ds.isEmpty && frac.isEmpty) then
        some (mkDecimal (natOfDigits (ds ++ frac)) frac.length)
      else none
  | _ => none

/-- Sign handling of `Number(...)`, applied after trimming: the empty
string is `0`, an optional leading sign precedes the unsigned literal. -/
def jsParseSigned : List Char → JsNum
  | [] => some 0
  | '-' :: r => jNeg (parseDec r)
  | '+' :: r => parseDec r
  | l => parseDec l

/-- The `Number(...)` conversion on a character list. -/
def jsNumL (l : List Char) : JsNum := jsParseSigned (trimL l)

/-- Keep the head of the list when it is `c` (`startsWith` on a single
character; applied to the reversed list it is `endsWith`). -/
def headIs (c : Char) : List Char → Bool
  | [] => false
  | a :: _ => a == c

/-- Remove every comma, dollar sign and parenthesis, as the
`replace(/[,$()]/g, "")` call. -/
def stripL (l : List Char) : List Char :=
  l.filter (fun c => !(c == ',' || c == '$' || c == '(' || c == ')'))

/-- `normalizeAmount` (src/unnamed/part_001 lines 52-58): trim, remember
whether the value is parenthesis-wrapped, strip `,$()`, convert with
`Number`, and negate when wrapped. -/
def normalizeAmount (raw : String) : JsNum :=
  let s := trimL raw.data
  let neg := headIs '(' s && headIs ')' s.reverse
  let n := jsNumL (stripL s)
  if neg then jNeg n else n

example : normalizeAmount "54.32" = some (mkDecimal 5432 2) := rfl
example : normalizeAmount "(1,234.5)" = some (-mkDecimal 12345 1) := rfl
example : normalizeAmount "(-5)" = some 5 := by decide
example : normalizeAmount "" = some 0 := by decide
example : normalizeAmount "N/A" = none := by decide
example : normalizeAmount "200" = some 200 := by decide

/-!  The transaction record and the two entry points that build it. -/

/-- The persisted record (the `Transaction` type of the source).  The
`id` is the `crypto.randomUUID()` value, supplied here by the caller
since the model has no randomness. -/
structure Transaction where
  id : String
  date : String
  name : String
  amount : JsNum
  category : String
deriving DecidableEq

/-- A JSON value for the manual entry's `amount` field, which the route
types as `number | string`. -/
inductive JsonVal where
  | num (q : JsNum)
  | str (s : String)
deriving DecidableEq

/-- The `Number(x)` coercion applied to the request body's amount. -/
def toNumber : JsonVal → JsNum
  | .num q => q
  | .str s => jsNumL s.data

/-- POST /transactions (src/unnamed/part_001 lines 109-129): the manual
entry point.  The caller-supplied signed amount is stored verbatim after
numeric coercion; no sign inference runs here. -/
def addTransaction (id date name : String) (amount : JsonVal) : Transaction :=
  let cleanName := trimStr name
  let amountNum := toNumber amount
  { id := id
    date := slice10 date
    name := if cleanName = "" then "(No description)" else cleanName
    amount := amountNum
    category := if cleanName = "" then "Uncategorized" else categorize cleanName amountNum }

/-!  CSV import.  A parsed row (csv-parse with `columns: true`) is a
mapping from header names to cells; `none` is an absent column. -/

/-- A parsed CSV row. -/
def CsvRow := String → Option String

/-- A JavaScript `||` chain over candidate keys: the first truthy
(present, non-empty) value wins; when every key is falsy the chain's
value is that of the last key (possibly an empty string, possibly
undefined). -/
def orChain (r : CsvRow) : List String → Option String
  | [] => none
  | [k] => r k
  | k :: ks =>
    match r k with
    | some v => if v = "" then orChain r ks else some v
    | none => orChain r ks

/-- The date alias chain (line 166-171). -/
def resolveDate (r : CsvRow) : Option String :=
  orChain r ["date", "Date", "TransactionDate", "Transaction Date", "Trans. Date"]

/-- The name alias chain (lines 173-178). -/
def resolveName (r : CsvRow) : Option String :=
  orChain r ["name", "Description", "Name", "Merchant", "Merchant Name"]

/-- The amount alias chain (lines 180-185); note `Amount` appears twice
in the source, so the chain's last operand is again `r["Amount"]`. -/
def resolveAmount (r : CsvRow) : Option String :=
  orChain r ["amount", "Amount", "Transaction Amount", "Amount (USD)", "Amount"]

/-- The bank category chain `r.Category || r["Category"]` (line 187). -/
def resolveBankCategory (r : CsvRow) : Option String :=
  orChain r ["Category", "Category"]

/-- JavaScript falsiness of a resolved field: undefined or `""`. -/
def falsyOpt : Option String → Bool
  | none => true
  | some s => s == ""

/-- The `looksLikeCredit` test (lines 194-197): the regular expression
`/payment|credit|refund|returned|return/i` matches the cleaned name, or
the lower-cased bank category contains `payment` or `credit`. -/
def looksLikeCredit (cleanName bankCategory : String) : Bool :=
  incl (lowerStr cleanName) "payment" || incl (lowerStr cleanName) "credit" ||
    incl (lowerStr cleanName) "refund" || incl (lowerStr cleanName) "returned" ||
    incl (lowerStr cleanName) "return" ||
    incl (lowerStr bankCategory) "payment" || incl (lowerStr bankCategory) "credit"

/-- One iteration of the import row loop (lines 165-218): `none` models
`continue` (the row is skipped), `some tx` the transaction pushed. -/
def buildRow (id : String) (r : CsvRow) : Option Transaction :=
  let date := resolveDate r
  let rawName := resolveName r
  let amountRaw := resolveAmount r
  let bankCategory := resolveBankCategory r
  if falsyOpt date || amountRaw.isNone then none
  else
    let cleanName := trimStr (rawName.getD "")
    let amountNum := normalizeAmount (amountRaw.getD "")
    let credit := looksLikeCredit cleanName (bankCategory.getD "")
    let signedAmount := if credit then jAbs amountNum else jNeg (jAbs amountNum)
    let cleanBankCategory := trimStr (bankCategory.getD "")
    let category :=
      if cleanBankCategory ≠ "" then cleanBankCategory
      else if cleanName ≠ "" then categorize cleanName signedAmount
      else "Uncategorized"
    some { id := id
           date := slice10 (date.getD "")
           name := if cleanName = "" then "(No description)" else cleanName
           amount := signedAmount
           category := category }

/-- Outcome of the csv-parse callback: a document-level parse error or
the parsed rows. -/
inductive CsvParse where
  | failure (err : String)
  | ok (rows : List CsvRow)

/-- The route's reply: a 400 with a detail string, or the imported count
plus a sample of at most five records. -/
inductive ImportResponse where
  | parseError (detail : String)
  | success (imported : ℕ) (sample : List Transaction)
deriving DecidableEq

/-- The row loop over a whole document; `idf k` is the `randomUUID()`
result for the k-th successfully built transaction. -/
def importRows (idf : ℕ → String) : ℕ → List CsvRow → List Transaction
  | _, [] => []
  | k, r :: rs =>
    match buildRow (idf k) r with
    | none => importRows idf k rs
    | some tx => tx :: importRows idf (k + 1) rs

/-- The stored collection and reply after an import request. -/
structure ImportOutcome where
  store : List Transaction
  response : ImportResponse

/-- POST /transactions/import/csv (lines 149-226), given the outcome of
csv-parse on the uploaded body. -/
def importCsv (store : List Transaction) (idf : ℕ → String) (p : CsvParse) : ImportOutcome :=
  match p with
  | .failure e => { store := store, response := .parseError e }
  | .ok rows =>
    let imported := importRows idf 0 rows
    { store := store ++ imported
      response := .success imported.length (imported.take 5) }

/-!  The three aggregation loops.  `byCategory` is the JavaScript record
`Record<string, number>`, embedded as a map from key to `none` (key
absent) or `some v` (key present with value `v`, possibly `NaN`). -/

/-- The category key used by the totals loop: `t.category ||
"Uncategorized"` (line 85). -/
def catOf (t : Transaction) : String :=
  if t.category = "" then "Uncategorized" else t.category

/-- JavaScript `(byCategory[cat] || 0)`: undefined and `NaN` are falsy
and give `0`; a finite value gives itself (`0` is falsy too, but `0 || 0`
is again `0`, so the finite case needs no zero test). -/
def orZero : Option JsNum → JsNum
  | none => some 0
  | some none => some 0
  | some (some q) => some q

/-- Running state of the totals loop. -/
structure TotalsAcc where
  income : JsNum
  expenses : JsNum
  byCategory : String → Option JsNum

/-- One iteration of the totals loop (lines 84-93). -/
def totalsStep (acc : TotalsAcc) (t : Transaction) : TotalsAcc :=
  let cat := catOf t
  if jPos t.amount then { acc with income := jAdd acc.income t.amount }
  else
    let spend := jAbs t.amount
    { income := acc.income
      expenses := jAdd acc.expenses spend
      byCategory := fun c =>
        if c = cat then some (jAdd (orZero (acc.byCategory cat)) spend)
        else acc.byCategory c }

/-- The reply of GET /insights/totals. -/
structure TotalsOut where
  income : JsNum
  expenses : JsNum
  net : JsNum
  byCategory : String → Option JsNum

/-- GET /insights/totals (lines 78-98). -/
def insightsTotals (ts : List Transaction) : TotalsOut :=
  let acc := ts.foldl totalsStep
    { income := some 0, expenses := some 0, byCategory := fun _ => none }
  { income := acc.income
    expenses := acc.expenses
    net := jSub acc.income acc.expenses
    byCategory := acc.byCategory }

/-- The reply of GET /insights/summary (and the numbers GET
/insights/advice derives its messages from). -/
structure SummaryOut where
  income : JsNum
  expenses : JsNum
  net : JsNum
  savingsRate : JsNum
deriving DecidableEq

/-- One iteration of the summary loop (lines 237-240). -/
def summaryStep (acc : JsNum × JsNum) (t : Transaction) : JsNum × JsNum :=
  if jPos t.amount then (jAdd acc.1 t.amount, acc.2)
  else (acc.1, jAdd acc.2 (jAbs t.amount))

/-- GET /insights/summary (lines 233-246). -/
def insightsSummary (ts : List Transaction) : SummaryOut :=
  let acc := ts.foldl summaryStep (some 0, some 0)
  let net := jSub acc.1 acc.2
  { income := acc.1
    expenses := acc.2
    net := net
    savingsRate := if jPos acc.1 then jDiv net acc.1 else some 0 }

/-- One iteration of the advice loop (lines 252-255), written out a
second time in the source. -/
def adviceStep (acc : JsNum × JsNum) (t : Transaction) : JsNum × JsNum :=
  if jPos t.amount then (jAdd acc.1 t.amount, acc.2)
  else (acc.1, jAdd acc.2 (jAbs t.amount))

/-- The aggregation of GET /insights/advice (lines 248-258); the
advisory messages built from these numbers are not modelled. -/
def insightsAdvice (ts : List Transaction) : SummaryOut :=
  let acc := ts.foldl adviceStep (some 0, some 0)
  let net := jSub acc.1 acc.2
  { income := acc.1
    expenses := acc.2
    net := net
    savingsRate := if jPos acc.1 then jDiv net acc.1 else some 0 }

/-!  The specification-side categorizer for claim C1: the fixed priority
list of keyword sets, evaluated first match wins. -/

/-- The keyword rules of the design document, in its order. -/
def keywordRules : List (List String × String) :=
  [(["rent"], "Housing"),
   (["grocery", "supermarket", "trader", "whole foods"], "Groceries"),
   (["gas", "shell", "exxon", "bp"], "Gas"),
   (["uber", "lyft", "taxi"], "Transport"),
   (["netflix", "spotify", "hulu", "disney"], "Subscriptions"),
   (["electric", "utility", "water", "coned", "pseg"], "Utilities"),
   (["internet", "verizon", "optimum", "comcast"], "Internet"),
   (["coffee", "starbucks", "dunkin"], "Coffee"),
   (["chipotle", "mcdonald", "restaurant", "pizza"], "Dining")]

/-- Walk the priority list; the first rule one of whose keywords occurs
in the lowered name wins, and no match falls through to
"Uncategorized". -/
def firstMatch (n : String) : List (List String × String) → String
  | [] => "Uncategorized"
  | (kws, label) :: rest =>
    if kws.any (fun k => incl n k) then label else firstMatch n rest

/-!  Claim theorems. -/

/-- C1: the categorization heuristic is the fixed priority list: an
empty (all-whitespace) name is "Uncategorized" regardless of amount and
without consulting any keyword rule; otherwise a positive amount is
"Income" regardless of name; otherwise the first keyword rule whose set
matches the lower-cased name wins, in the order Housing, Groceries, Gas,
Transport, Subscriptions, Utilities, Internet, Coffee, Dining; and no
match is "Uncategorized". -/
theorem c1_categorize_priority (name : String) (amount : JsNum) :
    categorize name amount =
      if trimStr name = "" then "Uncategorized"
      else if jPos amount then "Income"
      else firstMatch (lowerStr name) keywordRules := by
  simp only [categorize, firstMatch, keywordRules, List.any_cons, List.any_nil, Bool.or_false,
    Bool.or_assoc]

/-- C8: the manual entry point applies no sign inference: the stored
amount is exactly the numerically coerced caller-supplied amount, for
every name (in particular credit-keyword names); the stored name is the
trimmed input or the placeholder "(No description)" when the trim is
empty; an empty trimmed name skips the heuristic and stores category
"Uncategorized"; and the concrete scenario {date 2024-03-01, name "",
amount -10} yields name "(No description)" and category
"Uncategorized". -/
theorem c8_manual_entry (id date name : String) (amount : JsonVal) :
    (addTransaction id date name amount).amount = toNumber amount
    ∧ (addTransaction id date name amount).name =
        (if trimStr name = "" then "(No description)" else trimStr name)
    ∧ (trimStr name = "" → (addTransaction id date name amount).category = "Uncategorized")
    ∧ addTransaction "i0" "2024-03-01" "" (.num (some (-10))) =
        { id := "i0", date := "2024-03-01", name := "(No description)"
          amount := some (-10), category := "Uncategorized" } := by
  refine ⟨rfl, rfl, fun h => ?_, by decide⟩
  simp [addTransaction, h]

/-!  Accessors naming the values the row loop computes for a row, used
to state the import claims (lines 191-201 of the source). -/

/-- The cleaned name of a row: `String(rawName ?? "").trim()`. -/
def rowCleanName (r : CsvRow) : String := trimStr ((resolveName r).getD "")

/-- The bank category string of a row: `String(bankCategory ?? "")`. -/
def rowBankCat (r : CsvRow) : String := (resolveBankCategory r).getD ""

/-- The normalized amount of a row. -/
def rowAmountNum (r : CsvRow) : JsNum := normalizeAmount ((resolveAmount r).getD "")

/-- The signed amount the row loop stores. -/
def rowSigned (r : CsvRow) : JsNum :=
  if looksLikeCredit (rowCleanName r) (rowBankCat r) then jAbs (rowAmountNum r)
  else jNeg (jAbs (rowAmountNum r))

/-- Absolute value is insensitive to the sign of its argument. -/
theorem jAbs_jNeg (a : JsNum) : jAbs (jNeg a) = jAbs a := by
  cases a with
  | none => rfl
  | some q =>
    simp only [jAbs, jNeg]
    rcases lt_trichotomy q 0 with h | h | h
    · rw [if_neg (by linarith), if_pos h]
    · simp [h]
    · rw [if_pos (by linarith), if_neg (by linarith), neg_neg]
    
/-- The heuristic agrees with the priority-list reading (helper shared
by several claims). -/
theorem categorize_eq_firstMatch (name : String) (amount : JsNum) :
    categorize name amount =
      if trimStr name = "" then "Uncategorized"
      else if jPos amount then "Income"
      else firstMatch (lowerStr name) keywordRules := by
  simp only [categorize, firstMatch, keywordRules, List.any_cons, List.any_nil, Bool.or_false,
    Bool.or_assoc]

/-- `firstMatch` only returns labels of the list or "Uncategorized". -/
theorem firstMatch_ne_empty (n : String) (rules : List (List String × String))
    (h : ∀ p ∈ rules, p.2 ≠ "") : firstMatch n rules ≠ "" := by
  induction rules with
  | nil => simp [firstMatch]
  | cons p rest ih =>
    obtain ⟨kws, label⟩ := p
    simp only [firstMatch]
    split_ifs
    · exact h ⟨kws, label⟩ (by simp)
    · exact ih fun q hq => h q (List.mem_cons_of_mem _ hq)

/-- The heuristic never returns the empty string. -/
theorem categorize_ne_empty (n : String) (a : JsNum) : categorize n a ≠ "" := by
  rw [categorize_eq_firstMatch]
  split_ifs
  · decide
  · decide
  · exact firstMatch_ne_empty _ _ (by decide)

/-- C2: for every CSV row that is imported, the stored amount is
+|normalized amount| exactly when the cleaned name contains one of the
credit keywords or the bank category contains payment/credit, and
-|normalized amount| otherwise; and the sign carried by the raw amount
string is irrelevant (negating the normalized amount leaves the stored
amount unchanged). -/
theorem c2_import_sign (id : String) (r : CsvRow) (tx : Transaction)
    (h : buildRow id r = some tx) :
    tx.amount = rowSigned r
    ∧ (if looksLikeCredit (rowCleanName r) (rowBankCat r) then jAbs (jNeg (rowAmountNum r))
       else jNeg (jAbs (jNeg (rowAmountNum r)))) = tx.amount := by
  have hskip : ¬((falsyOpt (resolveDate r) || (resolveAmount r).isNone) = true) := by
    intro hc
    rw [buildRow, if_pos hc] at h
    exact Option.noConfusion h
  rw [buildRow, if_neg hskip, Option.some.injEq] at h
  subst h
  refine ⟨rfl, ?_⟩
  rw [jAbs_jNeg]
  rfl

/-- A concrete credit-keyword row (C2 witness input). -/
def rowPayment : CsvRow := fun k =>
  if k = "Date" then some "2024-02-01"
  else if k = "Description" then some "PAYMENT THANK YOU"
  else if k = "Amount" then some "200"
  else none

/-- The transaction the import builds from `rowPayment`. -/
def txPayment : Transaction :=
  { id := "i0", date := "2024-02-01", name := "PAYMENT THANK YOU"
    amount := some 200, category := "Income" }

/-- C2 witness at the concrete payment row. -/
theorem c2_import_sign_witness :
    txPayment.amount = rowSigned rowPayment
    ∧ (if looksLikeCredit (rowCleanName rowPayment) (rowBankCat rowPayment)
        then jAbs (jNeg (rowAmountNum rowPayment))
        else jNeg (jAbs (jNeg (rowAmountNum rowPayment)))) = txPayment.amount :=
  c2_import_sign "i0" rowPayment txPayment (by decide)

/-- A row carrying only an amount column (no date). -/
def rowAmountOnly : CsvRow := fun k => if k = "Amount" then some "5.00" else none

/-- C4 counterexample: claim says a row where at least one of date or
amount resolves produces a transaction; here the amount resolves and the
row is skipped. -/
theorem c4_counterexample :
    resolveAmount rowAmountOnly = some "5.00"
    ∧ resolveDate rowAmountOnly = none
    ∧ buildRow "id0" rowAmountOnly = none := by
  refine ⟨by decide, by decide, rfl⟩

/-- C4 amended: a row is skipped exactly when the resolved date is
falsy (absent or empty) OR the resolved amount is absent; and a skipped
row contributes nothing to the imported list. -/
theorem c4_skip_rule (id : String) (r : CsvRow) :
    (buildRow id r = none ↔ (falsyOpt (resolveDate r) || (resolveAmount r).isNone) = true)
    ∧ ∀ (idf : ℕ → String) (k : ℕ) (rs : List CsvRow),
        buildRow (idf k) r = none → importRows idf k (r :: rs) = importRows idf k rs := by
  constructor
  · constructor
    · intro h
      by_contra hc
      rw [buildRow, if_neg hc] at h
      exact Option.noConfusion h
    · intro h
      rw [buildRow, if_pos h]
  · intro idf k rs h
    rw [importRows, h]

/-- C4 witness: a skipped row leaves the imported list unchanged. -/
theorem c4_skip_rule_witness :
    importRows (fun _ => "id0") 0 [rowAmountOnly] = importRows (fun _ => "id0") 0 [] :=
  (c4_skip_rule "id0" rowAmountOnly).2 (fun _ => "id0") 0 [] (by rfl)

/-- A row with a bank-supplied category that needs trimming and would
otherwise categorize differently. -/
def rowBank : CsvRow := fun k =>
  if k = "Date" then some "2024-02-02"
  else if k = "Description" then some "Uber"
  else if k = "Amount" then some "30"
  else if k = "Category" then some " Travel "
  else none

/-- The transaction the import builds from `rowBank`. -/
def txBank : Transaction :=
  { id := "i1", date := "2024-02-02", name := "Uber"
    amount := some (-30), category := "Travel" }

/-- C5: every built transaction has a non-empty category, resolved bank
category first (verbatim, trimmed), else heuristic on a non-empty
cleaned name with the signed amount, else "Uncategorized". -/
theorem c5_category_resolution (id date name : String) (a : JsonVal) (r : CsvRow) :
    (addTransaction id date name a).category ≠ ""
    ∧ (addTransaction id date name a).category =
        (if trimStr name = "" then "Uncategorized"
         else categorize (trimStr name) (toNumber a))
    ∧ ∀ tx, buildRow id r = some tx →
        tx.category ≠ ""
        ∧ tx.category =
            (if trimStr (rowBankCat r) ≠ "" then trimStr (rowBankCat r)
             else if rowCleanName r ≠ "" then categorize (rowCleanName r) (rowSigned r)
             else "Uncategorized") := by
  refine ⟨?_, ?_, ?_⟩
  · show (if trimStr name = "" then "Uncategorized" else categorize (trimStr name) (toNumber a)) ≠ ""
    split_ifs
    · decide
    · exact categorize_ne_empty _ _
  · rfl
  · intro tx h
    have hskip : ¬((falsyOpt (resolveDate r) || (resolveAmount r).isNone) = true) := by
      intro hc
      rw [buildRow, if_pos hc] at h
      exact Option.noConfusion h
    rw [buildRow, if_neg hskip, Option.some.injEq] at h
    subst h
    constructor
    · show (if trimStr (rowBankCat r) ≠ "" then trimStr (rowBankCat r)
            else if rowCleanName r ≠ "" then categorize (rowCleanName r) (rowSigned r)
            else "Uncategorized") ≠ ""
      by_cases h1 : trimStr (rowBankCat r) ≠ ""
      · rw [if_pos h1]
        exact h1
      · rw [if_neg h1]
        by_cases h2 : rowCleanName r ≠ ""
        · rw [if_pos h2]
          exact categorize_ne_empty _ _
        · rw [if_neg h2]
          decide
    · rfl

/-- C5 witness at a concrete manual entry and a concrete bank-category
row (note the bank category " Travel " is used trimmed, overriding the
heuristic's "Transport"). -/
theorem c5_category_resolution_witness :
    (addTransaction "i0" "2024-02-02" "Lunch" (.num (some (-8)))).category ≠ ""
    ∧ (txBank.category ≠ ""
       ∧ txBank.category =
          (if trimStr (rowBankCat rowBank) ≠ "" then trimStr (rowBankCat rowBank)
           else if rowCleanName rowBank ≠ "" then categorize (rowCleanName rowBank) (rowSigned rowBank)
           else "Uncategorized")) :=
  ⟨(c5_category_resolution "i0" "2024-02-02" "Lunch" (.num (some (-8))) rowBank).1,
   (c5_category_resolution "i1" "2024-02-02" "Lunch" (.num (some (-8))) rowBank).2.2 txBank (by decide)⟩

/-- C9: a document-level parse failure leaves the stored collection
untouched, creates zero transactions, and is reported as a hard failure
distinct from the success (count, sample) reply. -/
theorem c9_parse_failure (store : List Transaction) (idf : ℕ → String) (e : String) :
    (importCsv store idf (.failure e)).store = store
    ∧ (importCsv store idf (.failure e)).response = .parseError e
    ∧ ∀ n sample, (importCsv store idf (.failure e)).response ≠ .success n sample := by
  refine ⟨rfl, rfl, fun n sample h => ImportResponse.noConfusion h⟩

/-!  Algebra of `jAdd` and `jSum`, used by the aggregation claims. -/

theorem jAdd_comm (a b : JsNum) : jAdd a b = jAdd b a := by
  cases a <;> cases b <;> simp [jAdd, add_comm]

theorem jAdd_assoc (a b c : JsNum) : jAdd (jAdd a b) c = jAdd a (jAdd b c) := by
  cases a <;> cases b <;> cases c <;> simp [jAdd, add_assoc]

theorem jAdd_zero_left (a : JsNum) : jAdd (some 0) a = a := by
  cases a <;> simp [jAdd]

theorem jAdd_zero_right (a : JsNum) : jAdd a (some 0) = a := by
  cases a <;> simp [jAdd]

/-- Closed form of `jSum`: `NaN` when some element is `NaN`, otherwise
the rational sum. -/
theorem jSum_eq (l : List JsNum) :
    jSum l = if none ∈ l then none else some (l.filterMap id).sum := by
  induction l with
  | nil => simp [jSum]
  | cons x l ih =>
    cases x with
    | none => simp [jSum, jAdd]
    | some q =>
      by_cases h : none ∈ l
      · simp [jSum, ih, h, jAdd]
      · simp [jSum, ih, h, jAdd]

/-- `jSum` is invariant under permutation. -/
theorem jSum_perm {l l' : List JsNum} (h : l.Perm l') : jSum l = jSum l' := by
  rw [jSum_eq, jSum_eq]
  have hsum : (l.filterMap id).sum = (l'.filterMap id).sum :=
    (h.filterMap id).sum_eq
  by_cases hn : none ∈ l
  · rw [if_pos hn, if_pos (h.mem_iff.mp hn)]
  · rw [if_neg hn, if_neg fun hc => hn (h.mem_iff.mpr hc), hsum]

/-- The expense magnitudes the totals loop books under a given category
key, in input order. -/
def spendsOf (cat : String) (ts : List Transaction) : List JsNum :=
  (ts.filter fun t => !jPos t.amount && catOf t == cat).map fun t => jAbs t.amount

/-- The bucket update sequence of the totals loop for one key. -/
def bucketFold (b : Option JsNum) (l : List JsNum) : Option JsNum :=
  l.foldl (fun b v => some (jAdd (orZero b) v)) b

/-- The income accumulated by the totals loop. -/
theorem totals_income_char (ts : List Transaction) (acc : TotalsAcc) :
    (ts.foldl totalsStep acc).income =
      jAdd acc.income (jSum ((ts.filter fun t => jPos t.amount).map Transaction.amount)) := by
  induction ts generalizing acc with
  | nil => simp [jSum, jAdd_zero_right]
  | cons t ts ih =>
    by_cases h : jPos t.amount
    · rw [List.foldl_cons, ih, List.filter_cons_of_pos (by simpa using h)]
      simp only [List.map_cons, jSum, totalsStep, if_pos h, jAdd_assoc]
    · rw [List.foldl_cons, ih, List.filter_cons_of_neg (by simpa using h)]
      simp only [totalsStep, if_neg h]

/-- The expenses accumulated by the totals loop. -/
theorem totals_expenses_char (ts : List Transaction) (acc : TotalsAcc) :
    (ts.foldl totalsStep acc).expenses =
      jAdd acc.expenses (jSum ((ts.filter fun t => !jPos t.amount).map fun t => jAbs t.amount)) := by
  induction ts generalizing acc with
  | nil => simp [jSum, jAdd_zero_right]
  | cons t ts ih =>
    by_cases h : jPos t.amount
    · rw [List.foldl_cons, ih, List.filter_cons_of_neg (by simpa using h)]
      simp only [totalsStep, if_pos h]
    · rw [List.foldl_cons, ih, List.filter_cons_of_pos (by simpa using h)]
      simp only [List.map_cons, jSum, totalsStep, if_neg h, jAdd_assoc]

/-- The bucket of one category key after the totals loop. -/
theorem totals_byCat_char (ts : List Transaction) (acc : TotalsAcc) (cat : String) :
    (ts.foldl totalsStep acc).byCategory cat =
      bucketFold (acc.byCategory cat) (spendsOf cat ts) := by
  induction ts generalizing acc with
  | nil => simp [spendsOf, bucketFold]
  | cons t ts ih =>
    by_cases h : jPos t.amount
    · rw [List.foldl_cons, ih]
      have : (t :: ts).filter (fun t => !jPos t.amount && catOf t == cat) =
          ts.filter (fun t => !jPos t.amount && catOf t == cat) :=
        List.filter_cons_of_neg (by simp [h])
      simp only [spendsOf, this, totalsStep, if_pos h]
    · by_cases hc : catOf t = cat
      · rw [List.foldl_cons, ih]
        have hf : (t :: ts).filter (fun t => !jPos t.amount && catOf t == cat) =
            t :: ts.filter (fun t => !jPos t.amount && catOf t == cat) :=
          List.filter_cons_of_pos (by simp [h, hc])
        simp only [spendsOf, hf, List.map_cons, bucketFold, List.foldl_cons]
        simp [totalsStep, if_neg h, hc]
      · rw [List.foldl_cons, ih]
        have hf : (t :: ts).filter (fun t => !jPos t.amount && catOf t == cat) =
            ts.filter (fun t => !jPos t.amount && catOf t == cat) :=
          List.filter_cons_of_neg (by simp [h, hc])
        simp only [spendsOf, hf]
        simp only [totalsStep, if_neg h]
        rw [if_neg fun hh => hc hh.symm]

theorem orZero_some (q : ℚ) : orZero (some (some q)) = some q := rfl

/-- Bucket fold from a finite bucket over finite spends: plain sums. -/
theorem bucketFold_finite (l : List JsNum) (h : ∀ v ∈ l, v ≠ none) (q : ℚ) :
    bucketFold (some (some q)) l = some (some (q + (l.filterMap id).sum)) := by
  induction l generalizing q with
  | nil => simp [bucketFold]
  | cons v l ih =>
    cases v with
    | none => exact absurd rfl (h none (by simp))
    | some a =>
      have hl : ∀ v ∈ l, v ≠ none := fun v hv => h v (List.mem_cons_of_mem _ hv)
      simp only [bucketFold, List.foldl_cons] at ih ⊢
      have hacc : some (jAdd (orZero (some (some q))) (some a)) = some (some (q + a)) := rfl
      rw [hacc, ih hl]
      simp [add_assoc]

/-- Bucket fold from an absent key over finite spends. -/
theorem bucketFold_none (l : List JsNum) (h : ∀ v ∈ l, v ≠ none) :
    bucketFold none l = if l = [] then none else some (jSum l) := by
  cases l with
  | nil => rfl
  | cons v l =>
    cases v with
    | none => exact absurd rfl (h none (by simp))
    | some a =>
      have hl : ∀ v ∈ l, v ≠ none := fun v hv => h v (List.mem_cons_of_mem _ hv)
      simp only [bucketFold, List.foldl_cons]
      have hacc : some (jAdd (orZero none) (some a)) = some (some a) := by
        show some (jAdd (some 0) (some a)) = some (some a)
        rw [jAdd_zero_left]
      rw [hacc]
      have := bucketFold_finite l hl a
      simp only [bucketFold] at this
      rw [this, if_neg (by simp)]
      have : none ∉ l := fun hc => hl none hc rfl
      rw [jSum, jSum_eq, if_neg this]
      simp [jAdd]

/-- `Math.abs` of a finite value is finite. -/
theorem jAbs_ne_none {a : JsNum} (h : a ≠ none) : jAbs a ≠ none := by
  cases a with
  | none => exact absurd rfl h
  | some q => simp [jAbs]

/-- Spends extracted from finite-amount transactions are finite. -/
theorem spendsOf_ne_none {ts : List Transaction} (h : ∀ t ∈ ts, t.amount ≠ none)
    (cat : String) : ∀ v ∈ spendsOf cat ts, v ≠ none := by
  intro v hv
  simp only [spendsOf, List.mem_map, List.mem_filter] at hv
  obtain ⟨t, ⟨ht, -⟩, rfl⟩ := hv
  exact jAbs_ne_none (h t ht)

/-- A transaction with a `NaN` amount booked under category "G". -/
def txNaN : Transaction :=
  { id := "n1", date := "2024-01-01", name := "??", amount := none, category := "G" }

/-- A 5-unit expense booked under category "G". -/
def txG5 : Transaction :=
  { id := "n2", date := "2024-01-02", name := "Stuff", amount := some (-5), category := "G" }

/-- C6 counterexample: after a `NaN` expense, the next expense magnitude
in the same category is not added to the bucket (which would give `NaN`)
but to a reset value of 0: the bucket ends at 5 while the sum of the
booked magnitudes is `NaN`. -/
theorem c6_counterexample :
    (insightsTotals [txNaN, txG5]).byCategory "G" = some (some 5)
    ∧ jSum (spendsOf "G" [txNaN, txG5]) = none := by
  constructor
  · have h1 : (insightsTotals [txNaN, txG5]).byCategory "G" = some (some ((0 : ℚ) + 5)) := rfl
    rw [h1, zero_add]
  · rfl

/-- C6 amended: income is the sum of the positive amounts, expenses the
sum of the non-positive magnitudes, net their difference; for
collections of numeric (non-NaN) amounts each category bucket is the sum
of the magnitudes booked under it (absent when there are none); a
zero-amount transaction changes neither total; and the empty collection
yields all-zero totals and an empty byCategory. -/
theorem c6_aggregation (ts : List Transaction) :
    (insightsTotals ts).income =
      jSum ((ts.filter fun t => jPos t.amount).map Transaction.amount)
    ∧ (insightsTotals ts).expenses =
        jSum ((ts.filter fun t => !jPos t.amount).map fun t => jAbs t.amount)
    ∧ (insightsTotals ts).net =
        jSub (insightsTotals ts).income (insightsTotals ts).expenses
    ∧ ((∀ t ∈ ts, t.amount ≠ none) → ∀ cat,
        (insightsTotals ts).byCategory cat =
          if spendsOf cat ts = [] then none else some (jSum (spendsOf cat ts)))
    ∧ (∀ t, t.amount = some 0 →
        (insightsTotals (ts ++ [t])).income = (insightsTotals ts).income
          ∧ (insightsTotals (ts ++ [t])).expenses = (insightsTotals ts).expenses)
    ∧ (insightsTotals ([] : List Transaction)).income = some 0
    ∧ (insightsTotals ([] : List Transaction)).expenses = some 0
    ∧ (insightsTotals ([] : List Transaction)).net = some 0
    ∧ ∀ c, (insightsTotals ([] : List Transaction)).byCategory c = none := by
  refine ⟨?_, ?_, rfl, ?_, ?_, rfl, rfl, ?_, fun c => rfl⟩
  · simp only [insightsTotals]
    rw [totals_income_char, jAdd_zero_left]
  · simp only [insightsTotals]
    rw [totals_expenses_char, jAdd_zero_left]
  · intro h cat
    simp only [insightsTotals]
    rw [totals_byCat_char]
    exact bucketFold_none _ (spendsOf_ne_none h cat)
  · intro t ht
    simp only [insightsTotals, List.foldl_append, List.foldl_cons, List.foldl_nil]
    have hpos : jPos t.amount = false := by rw [ht]; rfl
    have habs : jAbs t.amount = some 0 := by rw [ht]; simp [jAbs]
    constructor
    · simp [totalsStep, hpos]
    · simp [totalsStep, hpos, habs, jAdd_zero_right]
  · show jSub (some 0) (some 0) = some 0
    simp [jSub, jAdd, jNeg]

/-- A concrete income transaction. -/
def txA : Transaction :=
  { id := "a1", date := "2024-01-01", name := "Paycheck", amount := some 1000, category := "Income" }

/-- A concrete expense transaction. -/
def txB : Transaction :=
  { id := "a2", date := "2024-01-02", name := "Stuff", amount := some (-200), category := "Food" }

/-- A concrete zero-amount transaction. -/
def txZero : Transaction :=
  { id := "a3", date := "2024-01-03", name := "Zero", amount := some 0, category := "Misc" }

/-- C6 witness at a concrete numeric collection and a concrete
zero-amount transaction. -/
theorem c6_aggregation_witness :
    ((insightsTotals [txA, txB]).byCategory "Food" =
      if spendsOf "Food" [txA, txB] = [] then none
      else some (jSum (spendsOf "Food" [txA, txB])))
    ∧ (insightsTotals ([txA, txB] ++ [txZero])).income = (insightsTotals [txA, txB]).income
    ∧ (insightsTotals ([txA, txB] ++ [txZero])).expenses = (insightsTotals [txA, txB]).expenses :=
  ⟨(c6_aggregation [txA, txB]).2.2.2.1 (by decide) "Food",
   ((c6_aggregation [txA, txB]).2.2.2.2.1 txZero rfl).1,
   ((c6_aggregation [txA, txB]).2.2.2.2.1 txZero rfl).2⟩

/-- C7 counterexample: the two orders of a `NaN` expense and a 5-unit
expense in the same category are a permutation of each other, yet the
final byCategory value at that category differs (5 against `NaN`). -/
theorem c7_counterexample :
    ([txNaN, txG5]).Perm [txG5, txNaN]
    ∧ (insightsTotals [txNaN, txG5]).byCategory "G"
        ≠ (insightsTotals [txG5, txNaN]).byCategory "G" := by
  refine ⟨List.Perm.swap txG5 txNaN [], ?_⟩
  have hL : (insightsTotals [txNaN, txG5]).byCategory "G" = some (some ((0 : ℚ) + 5)) := rfl
  have hR : (insightsTotals [txG5, txNaN]).byCategory "G" = some none := rfl
  rw [hL, hR]
  simp

/-- C7 amended: permuting the collection changes neither income,
expenses nor net; and for collections of numeric (non-NaN) amounts it
does not change byCategory either. -/
theorem c7_aggregation_perm (ts ts' : List Transaction) (h : ts.Perm ts') :
    (insightsTotals ts).income = (insightsTotals ts').income
    ∧ (insightsTotals ts).expenses = (insightsTotals ts').expenses
    ∧ (insightsTotals ts).net = (insightsTotals ts').net
    ∧ ((∀ t ∈ ts, t.amount ≠ none) →
        (insightsTotals ts).byCategory = (insightsTotals ts').byCategory) := by
  have hinc : (insightsTotals ts).income = (insightsTotals ts').income := by
    simp only [insightsTotals]
    rw [totals_income_char, totals_income_char]
    exact congrArg _ (jSum_perm ((h.filter _).map _))
  have hexp : (insightsTotals ts).expenses = (insightsTotals ts').expenses := by
    simp only [insightsTotals]
    rw [totals_expenses_char, totals_expenses_char]
    exact congrArg _ (jSum_perm ((h.filter _).map _))
  refine ⟨hinc, hexp, ?_, ?_⟩
  · show jSub (insightsTotals ts).income (insightsTotals ts).expenses =
      jSub (insightsTotals ts').income (insightsTotals ts').expenses
    rw [hinc, hexp]
  · intro hfin
    funext cat
    have hfin' : ∀ t ∈ ts', t.amount ≠ none := fun t ht => hfin t (h.mem_iff.mpr ht)
    have hperm : (spendsOf cat ts).Perm (spendsOf cat ts') := (h.filter _).map _
    show (insightsTotals ts).byCategory cat = (insightsTotals ts').byCategory cat
    simp only [insightsTotals]
    rw [totals_byCat_char, totals_byCat_char,
      bucketFold_none _ (spendsOf_ne_none hfin cat),
      bucketFold_none _ (spendsOf_ne_none hfin' cat)]
    by_cases he : spendsOf cat ts = []
    · rw [if_pos he, if_pos (List.Perm.eq_nil (he ▸ hperm).symm)]
    · have he' : spendsOf cat ts' ≠ [] := by
        intro hc
        exact he (List.Perm.eq_nil (hc ▸ hperm))
      rw [if_neg he, if_neg he', jSum_perm hperm]

/-- C7 witness at a concrete two-element numeric collection and its
swap. -/
theorem c7_aggregation_perm_witness :
    (insightsTotals [txA, txB]).income = (insightsTotals [txB, txA]).income
    ∧ (insightsTotals [txA, txB]).expenses = (insightsTotals [txB, txA]).expenses
    ∧ (insightsTotals [txA, txB]).net = (insightsTotals [txB, txA]).net
    ∧ (insightsTotals [txA, txB]).byCategory = (insightsTotals [txB, txA]).byCategory :=
  have hthm := c7_aggregation_perm [txA, txB] [txB, txA] (List.Perm.swap txB txA [])
  ⟨hthm.1, hthm.2.1, hthm.2.2.1, hthm.2.2.2 (by decide)⟩

/-- Closed form of the summary loop's accumulator pair. -/
theorem summary_acc_char (ts : List Transaction) (acc : JsNum × JsNum) :
    (ts.foldl summaryStep acc).1 =
      jAdd acc.1 (jSum ((ts.filter fun t => jPos t.amount).map Transaction.amount))
    ∧ (ts.foldl summaryStep acc).2 =
      jAdd acc.2 (jSum ((ts.filter fun t => !jPos t.amount).map fun t => jAbs t.amount)) := by
  induction ts generalizing acc with
  | nil => simp [jSum, jAdd_zero_right]
  | cons t ts ih =>
    by_cases h : jPos t.amount
    · constructor
      · rw [List.foldl_cons, (ih _).1, List.filter_cons_of_pos (by simpa using h)]
        simp only [List.map_cons, jSum, summaryStep, if_pos h, jAdd_assoc]
      · rw [List.foldl_cons, (ih _).2, List.filter_cons_of_neg (by simpa using h)]
        simp only [summaryStep, if_pos h]
    · constructor
      · rw [List.foldl_cons, (ih _).1, List.filter_cons_of_neg (by simpa using h)]
        simp only [summaryStep, if_neg h]
      · rw [List.foldl_cons, (ih _).2, List.filter_cons_of_pos (by simpa using h)]
        simp only [List.map_cons, jSum, summaryStep, if_neg h, jAdd_assoc]

/-- C10: the totals, summary and advice endpoints compute the same
income, expenses and net, and summary and advice the same savings rate:
the three independently written loops agree. -/
theorem c10_endpoints_agree (ts : List Transaction) :
    (insightsSummary ts).income = (insightsTotals ts).income
    ∧ (insightsSummary ts).expenses = (insightsTotals ts).expenses
    ∧ (insightsSummary ts).net = (insightsTotals ts).net
    ∧ insightsAdvice ts = insightsSummary ts := by
  have hinc : (insightsSummary ts).income = (insightsTotals ts).income := by
    simp only [insightsSummary, insightsTotals]
    rw [(summary_acc_char ts _).1, totals_income_char]
  have hexp : (insightsSummary ts).expenses = (insightsTotals ts).expenses := by
    simp only [insightsSummary, insightsTotals]
    rw [(summary_acc_char ts _).2, totals_expenses_char]
  refine ⟨hinc, hexp, ?_, rfl⟩
  show jSub (insightsSummary ts).income (insightsSummary ts).expenses =
    jSub (insightsTotals ts).income (insightsTotals ts).expenses
  rw [hinc, hexp]

/-- C8 witness: the concrete empty-name scenario discharges the
hypothesis of the category clause. -/
theorem c8_manual_entry_witness :
    (addTransaction "i0" "2024-03-01" "" (.num (some (-10)))).category = "Uncategorized" :=
  (c8_manual_entry "i0" "2024-03-01" "" (.num (some (-10)))).2.2.1 rfl

/-!  List lemmas for claim C3: how `trim` interacts with character
removal.  `ws` abbreviates the trimmed whitespace predicate. -/

/-- Dropping while a predicate holds ignores an all-satisfying prefix. -/
theorem dropWhile_all_append (pred : Char → Bool) (u v : List Char)
    (h : ∀ c ∈ u, pred c = true) :
    (u ++ v).dropWhile pred = v.dropWhile pred := by
  induction u with
  | nil => rfl
  | cons c u ih =>
    rw [List.cons_append, List.dropWhile_cons_of_pos (h c (by simp))]
    exact ih fun c hc => h c (List.mem_cons_of_mem _ hc)

/-- When the first part survives dropping, the second is untouched. -/
theorem dropWhile_append_of_ne_nil (pred : Char → Bool) (u v : List Char)
    (h : u.dropWhile pred ≠ []) :
    (u ++ v).dropWhile pred = u.dropWhile pred ++ v := by
  induction u with
  | nil => exact absurd rfl h
  | cons c u ih =>
    by_cases hc : pred c = true
    · rw [List.cons_append, List.dropWhile_cons_of_pos hc, List.dropWhile_cons_of_pos hc] at *
      exact ih h
    · rw [List.cons_append, List.dropWhile_cons_of_neg (by simpa using hc),
        List.dropWhile_cons_of_neg (by simpa using hc), List.cons_append]

/-- Everything taken by `takeWhile` satisfies the predicate. -/
theorem mem_takeWhile_pred (pred : Char → Bool) (l : List Char) :
    ∀ c ∈ l.takeWhile pred, pred c = true := by
  induction l with
  | nil => intro c hc; cases hc
  | cons a l ih =>
    intro c hc
    by_cases ha : pred a = true
    · rw [List.takeWhile_cons_of_pos ha] at hc
      rcases List.mem_cons.mp hc with rfl | hc
      · exact ha
      · exact ih c hc
    · rw [List.takeWhile_cons_of_neg (by simpa using ha)] at hc
      cases hc

/-- Members of the dropped-prefix remainder are members. -/
theorem mem_of_mem_dropWhile (pred : Char → Bool) (l : List Char) :
    ∀ c ∈ l.dropWhile pred, c ∈ l := by
  induction l with
  | nil => intro c hc; cases hc
  | cons a l ih =>
    intro c hc
    by_cases ha : pred a = true
    · rw [List.dropWhile_cons_of_pos ha] at hc
      exact List.mem_cons_of_mem _ (ih c hc)
    · rw [List.dropWhile_cons_of_neg (by simpa using ha)] at hc
      exact hc

/-- Abbreviation for the trim predicate. -/
def ws (c : Char) : Bool := Char.isWhitespace c

/-- Dropping trailing whitespace ignores an all-whitespace suffix. -/
theorem rdrop_append_ws (y s : List Char) (hs : ∀ c ∈ s, ws c = true) :
    ((y ++ s).reverse.dropWhile Char.isWhitespace).reverse =
      (y.reverse.dropWhile Char.isWhitespace).reverse := by
  rw [List.reverse_append, dropWhile_all_append Char.isWhitespace s.reverse y.reverse
    fun c hc => hs c (List.mem_reverse.mp hc)]

/-- An all-whitespace list drops to nothing. -/
theorem dropWhile_all_nil (u : List Char) (h : ∀ c ∈ u, ws c = true) :
    u.dropWhile Char.isWhitespace = [] := by
  have := dropWhile_all_append Char.isWhitespace u [] h
  simpa using this

/-- Trimming ignores whitespace padding on both sides. -/
theorem trimL_pad (p x s : List Char) (hp : ∀ c ∈ p, ws c = true)
    (hs : ∀ c ∈ s, ws c = true) : trimL (p ++ x ++ s) = trimL x := by
  unfold trimL
  rw [List.append_assoc, dropWhile_all_append Char.isWhitespace p (x ++ s) hp]
  by_cases hx : x.dropWhile Char.isWhitespace = []
  · have hxw : ∀ c ∈ x, ws c = true := by
      intro c hc
      have hdecomp := List.takeWhile_append_dropWhile (p := Char.isWhitespace) (l := x)
      rw [hx, List.append_nil] at hdecomp
      exact mem_takeWhile_pred Char.isWhitespace x c (by rw [hdecomp]; exact hc)
    have : ∀ c ∈ x ++ s, ws c = true := by
      intro c hc
      rcases List.mem_append.mp hc with hc | hc
      · exact hxw c hc
      · exact hs c hc
    rw [dropWhile_all_nil _ this, hx]
  · rw [dropWhile_append_of_ne_nil Char.isWhitespace x s hx]
    exact rdrop_append_ws _ s hs

/-- Every list is its trim padded with whitespace. -/
theorem trimL_decomp (l : List Char) :
    ∃ p s, (∀ c ∈ p, ws c = true) ∧ (∀ c ∈ s, ws c = true)
      ∧ l = p ++ trimL l ++ s := by
  refine ⟨l.takeWhile Char.isWhitespace,
    ((l.dropWhile Char.isWhitespace).reverse.takeWhile Char.isWhitespace).reverse,
    mem_takeWhile_pred _ l, ?_, ?_⟩
  · intro c hc
    exact mem_takeWhile_pred _ _ c (List.mem_reverse.mp hc)
  · conv_lhs => rw [← List.takeWhile_append_dropWhile (p := Char.isWhitespace) (l := l)]
    rw [List.append_assoc]
    congr 1
    conv_lhs => rw [← List.reverse_reverse (l.dropWhile Char.isWhitespace),
      ← List.takeWhile_append_dropWhile (p := Char.isWhitespace)
        (l := (l.dropWhile Char.isWhitespace).reverse)]
    rw [List.reverse_append]
    rfl

/-- Whitespace survives the `[,$()]` strip. -/
theorem stripL_keeps_ws {c : Char} (h : ws c = true) :
    (!(c == ',' || c == '$' || c == '(' || c == ')')) = true := by
  simp only [ws, Char.isWhitespace, Bool.or_eq_true, decide_eq_true_eq] at h
  rcases h with ((h | h) | h) | h <;> subst h <;> decide

/-- Stripping `[,$()]` from all-whitespace text is the identity. -/
theorem stripL_all_ws (u : List Char) (h : ∀ c ∈ u, ws c = true) :
    stripL u = u :=
  List.filter_eq_self.mpr fun c hc => stripL_keeps_ws (h c hc)

/-- Stripping distributes over append. -/
theorem stripL_append (u v : List Char) : stripL (u ++ v) = stripL u ++ stripL v := by
  simp [stripL]

/-- The order of trimming and stripping does not matter to a final
trim: trimming first, stripping, then trimming again is the same as
stripping then trimming. -/
theorem trimL_stripL_trimL (l : List Char) :
    trimL (stripL (trimL l)) = trimL (stripL l) := by
  obtain ⟨p, s, hp, hs, hdecomp⟩ := trimL_decomp l
  conv_rhs => rw [hdecomp, stripL_append, stripL_append,
    stripL_all_ws p hp, stripL_all_ws s hs]
  rw [trimL_pad p _ s hp hs]

/-- A character of the trim is a character of the list. -/
theorem mem_trimL {c : Char} {l : List Char} (h : c ∈ trimL l) : c ∈ l := by
  unfold trimL at h
  rw [List.mem_reverse] at h
  have h2 := mem_of_mem_dropWhile _ _ _ h
  rw [List.mem_reverse] at h2
  exact mem_of_mem_dropWhile _ _ _ h2

/-- `headIs` fails when the character does not occur at all. -/
theorem headIs_of_not_mem {c : Char} {l : List Char} (h : c ∉ l) : headIs c l = false := by
  cases l with
  | nil => rfl
  | cons a t =>
    simp only [headIs, beq_eq_false_iff_ne]
    intro hac
    exact h (hac ▸ List.mem_cons_self a t)

/-- A parenthesis-wrapped list is already trimmed at both ends. -/
theorem trimL_paren (d : List Char) :
    trimL (('(' :: d) ++ [')']) = ('(' :: d) ++ [')'] := by
  unfold trimL
  have hd : (('(' :: d) ++ [')']).dropWhile Char.isWhitespace = ('(' :: d) ++ [')'] := by
    rw [List.cons_append, List.dropWhile_cons_of_neg (by decide), ← List.cons_append]
  rw [hd]
  have hr : (('(' :: d) ++ [')']).reverse.dropWhile Char.isWhitespace
      = (('(' :: d) ++ [')']).reverse := by
    rw [List.reverse_append]
    show (')' :: ('(' :: d).reverse).dropWhile Char.isWhitespace = ')' :: ('(' :: d).reverse
    rw [List.dropWhile_cons_of_neg (by decide)]
  rw [hr, List.reverse_reverse]

/-- C3: wrapping a parenthesis-free amount string in parentheses negates
its normalized value, and without parentheses normalization is exactly
the `Number` conversion of the stripped text (so yields the value
itself, commas and dollar signs removed). -/
theorem c3_normalize_amount (a : String) (h1 : '(' ∉ a.data) (_h2 : ')' ∉ a.data) :
    normalizeAmount ("(" ++ a ++ ")") = jNeg (normalizeAmount a)
    ∧ normalizeAmount a = jsNumL (stripL a.data) := by
  have part2 : normalizeAmount a = jsNumL (stripL a.data) := by
    simp only [normalizeAmount]
    rw [headIs_of_not_mem fun hc => h1 (mem_trimL hc)]
    simp only [Bool.false_and, Bool.false_eq_true, if_false]
    show jsParseSigned (trimL (stripL (trimL a.data))) = jsParseSigned (trimL (stripL a.data))
    rw [trimL_stripL_trimL]
  refine ⟨?_, part2⟩
  have hdata : ("(" ++ a ++ ")").data = ('(' :: a.data) ++ [')'] := by
    show (("(" ++ a) ++ ")").data = _
    rw [String.data_append, String.data_append]
    rfl
  conv_lhs => simp only [normalizeAmount]
  rw [hdata, trimL_paren]
  have hhead : headIs '(' (('(' :: a.data) ++ [')']) = true := by
    rw [List.cons_append]
    rfl
  have hlast : headIs ')' ((('(' :: a.data) ++ [')']).reverse) = true := by
    rw [List.reverse_append]
    rfl
  have hstrip : stripL (('(' :: a.data) ++ [')']) = stripL a.data := by
    rw [stripL_append]
    have hparen : stripL ('(' :: a.data) = stripL a.data :=
      List.filter_cons_of_neg (by decide)
    have hclose : stripL [')'] = ([] : List Char) := rfl
    rw [hparen, hclose, List.append_nil]
  rw [hhead, hlast, hstrip, part2]
  simp

/-- C3 witness at the concrete amount string "54.32". -/
theorem c3_normalize_amount_witness :
    normalizeAmount ("(" ++ "54.32" ++ ")") = jNeg (normalizeAmount "54.32")
    ∧ normalizeAmount "54.32" = jsNumL (stripL "54.32".data) :=
  c3_normalize_amount "54.32" (by decide) (by decide)
